import Mathlib

/-!
Shallow embedding of the lexical scanner in `src/tokenizer/mod.rs` of the
`codecrafters-interpreter-rust` repository, together with proofs of the
specification claims about it.

Modelling conventions:
* Rust's `Chars` iterator over the input is modelled as a `List Char`;
  `chars.next()` is pattern matching on the head, `chars.peek()` is looking
  at the head without consuming it.
* The source uses the `peekmore` crate.  There `peek()` returns the first
  unconsumed character and `peek_nth(n)` returns the unconsumed character at
  0-based offset `n` (so `peek_nth(0)` coincides with `peek()`; the cursor is
  never advanced in this source).  Hence the call `chars.peek_nth(2)` made in
  `tokenize_number` while `peek()` sees `'.'` inspects the second character
  after the dot, which is `cs[2]` when the unconsumed stream is `cs` with
  `cs[0] = '.'`.
* Rust `String` accumulation (`push`) becomes `List Char` accumulation with
  `acc ++ [c]`, packed into a Lean `String` at the end.
* `char::is_digit(10)` is ASCII `'0'..='9'`, modelled exactly.
* `char::is_alphanumeric` is a Unicode predicate whose character tables are
  not transcribable here.  The identifier sub-scanner is therefore embedded
  twice: once parametrically in an arbitrary predicate `isalnum`
  (`identifier_loopP`, `tokenize_identifierP`), for which the accumulation
  and keyword-lookup properties are proven uniformly — so they hold in
  particular for the source's true predicate — and once instantiated with
  the ASCII fragment of `char::is_alphanumeric` (`is_alphanumeric`), which is
  the executable instance the scanner model `scan` runs on and which agrees
  with the source exactly on ASCII input.
-/

namespace Lox

structure TokenizerError where
  line : Nat
  message : String
deriving DecidableEq

inductive Token where
  | And | Class | Else | False | For | Fun | If | Nil | Or | Print
  | Return | Super | This | True | Var | While
  | Equal | EqualEqual | Semicolon | LeftParen | RightParen
  | LeftBrace | RightBrace | Star | Dot | Comma | Plus | Minus | Slash
  | Bang | BangEqual | Less | LessEqual | Greater | GreaterEqual
  | Identifier (s : String)
  | String (s : String)
  | Number (s : String)
  | Invalid (e : TokenizerError)
  | WhiteSpace
  | EOF
deriving DecidableEq

/-- The fixed keyword table `RESERVED_KEYWORDS` of the source, in source
order, as (spelling, token) pairs. -/
def RESERVED_KEYWORDS : List (String × Token) :=
  [ ("var", Token.Var), ("and", Token.And), ("class", Token.Class),
    ("else", Token.Else), ("false", Token.False), ("for", Token.For),
    ("fun", Token.Fun), ("if", Token.If), ("nil", Token.Nil),
    ("or", Token.Or), ("print", Token.Print), ("return", Token.Return),
    ("super", Token.Super), ("this", Token.This), ("true", Token.True),
    ("while", Token.While) ]

/-- Rust `c.is_digit(10)`: an ASCII decimal digit. -/
def isDigit10 (c : Char) : Bool :=
  '0' ≤ c && c ≤ '9'

/-- The ASCII fragment of Rust `char::is_alphanumeric` (ASCII letters and
digits): the executable instance of the identifier-continuation predicate
that the scanner model below runs on.  It agrees with the source's Unicode
predicate on every ASCII character; statements about identifier accumulation
that quantify over arbitrary input are proven for an arbitrary predicate
(`identifier_loopP` below), so they also cover the source's true predicate. -/
def is_alphanumeric (c : Char) : Bool :=
  ('a' ≤ c && c ≤ 'z') || ('A' ≤ c && c ≤ 'Z') || isDigit10 c

/-- The entry guard of the identifier arm of the scanner's `match`:
the Rust pattern `'a'..='z' | 'A'..='Z' | '_'`. -/
def isIdentStart (c : Char) : Bool :=
  ('a' ≤ c && c ≤ 'z') || ('A' ≤ c && c ≤ 'Z') || c = '_'

/-- The continuation test of the identifier loop:
Rust `c.is_alphanumeric() || c == '_'`. -/
def isIdentCont (c : Char) : Bool :=
  is_alphanumeric c || c = '_'

/-- The `while let Some(&c) = chars.peek()` loop of `tokenize_identifier`:
accumulate while the lookahead is alphanumeric or `'_'`. -/
def identifier_loop (acc : List Char) : List Char → List Char × List Char
  | [] => (acc, [])
  | c :: rest =>
    if isIdentCont c then identifier_loop (acc ++ [c]) rest
    else (acc, c :: rest)

/-- `tokenize_identifier` of the source: accumulate the identifier starting
with the already-consumed `first_char`, then look the spelling up in
`RESERVED_KEYWORDS` (linear scan, exact string equality); on a hit return the
keyword's token, otherwise an `Identifier`. -/
def tokenize_identifier (first_char : Char) (chars : List Char) :
    Token × List Char :=
  let p := identifier_loop [first_char] chars
  let identifier : String := ⟨p.1⟩
  match RESERVED_KEYWORDS.find? (fun kw => kw.1 == identifier) with
  | some kw => (kw.2, p.2)
  | none => (Token.Identifier identifier, p.2)

/-- The accumulation loop of `tokenize_identifier`, embedded parametrically
in the continuation predicate: `isalnum` stands for Rust's Unicode
`char::is_alphanumeric`, whose tables cannot be transcribed here.
`identifier_loop` is the instance at the ASCII fragment
(`identifier_loopP_ascii` below); properties proven for every `isalnum` hold
in particular for the source's true predicate. -/
def identifier_loopP (isalnum : Char → Bool) (acc : List Char) :
    List Char → List Char × List Char
  | [] => (acc, [])
  | c :: rest =>
    if isalnum c || c = '_' then identifier_loopP isalnum (acc ++ [c]) rest
    else (acc, c :: rest)

/-- `tokenize_identifier` of the source, embedded parametrically in the
`char::is_alphanumeric` predicate (see `identifier_loopP`): accumulate the
identifier, then look the spelling up in `RESERVED_KEYWORDS`. -/
def tokenize_identifierP (isalnum : Char → Bool) (first_char : Char)
    (chars : List Char) : Token × List Char :=
  let p := identifier_loopP isalnum [first_char] chars
  let identifier : String := ⟨p.1⟩
  match RESERVED_KEYWORDS.find? (fun kw => kw.1 == identifier) with
  | some kw => (kw.2, p.2)
  | none => (Token.Identifier identifier, p.2)

/-- The `while let Some(&c) = chars.peek()` loop of `tokenize_number`.
A digit is consumed and accumulated.  On `'.'`: if a fractional part was
already consumed the loop breaks; otherwise `chars.peek_nth(2)` — the second
character after the dot, `(c :: rest)[2]?` here — must exist and be a digit
for the dot to be consumed, else the loop breaks leaving the dot unconsumed.
Any other character breaks the loop. -/
def number_loop (acc : List Char) (decimal : Bool) :
    List Char → List Char × List Char
  | [] => (acc, [])
  | c :: rest =>
    if isDigit10 c then number_loop (acc ++ [c]) decimal rest
    else if c = '.' then
      if decimal then (acc, c :: rest)
      else
        match (c :: rest)[2]? with
        | none => (acc, c :: rest)
        | some d =>
          if isDigit10 d then number_loop (acc ++ [c]) true rest
          else (acc, c :: rest)
    else (acc, c :: rest)

/-- `tokenize_number` of the source: run the accumulation loop seeded with the
already-consumed first digit, then normalize a trailing `'.'` by appending
`'0'` (the Rust check `&number[number.len() - 1..] == "."`). -/
def tokenize_number (first_char : Char) (chars : List Char) :
    Token × List Char :=
  let p := number_loop [first_char] false chars
  let number := if p.1.getLast? = some '.' then p.1 ++ ['0'] else p.1
  (Token.Number ⟨number⟩, p.2)

/-- The `while let Some(c) = chars.next()` loop of `tokenize_string`:
consume characters, remembering the last consumed one, until a `'"'` is
consumed (break) or input runs out.  Returns (accumulated text, last consumed
character — initialized to `'"'` as in the source, remaining input). -/
def string_loop (acc : List Char) (last_char : Char) :
    List Char → List Char × Char × List Char
  | [] => (acc, last_char, [])
  | c :: rest =>
    if c = '"' then (acc, c, rest)
    else string_loop (acc ++ [c]) c rest

/-- `tokenize_string` of the source: run the loop (with `last_char`
initialized to `'"'`); if the loop did not end on a closing quote, return the
`Invalid` token with the hard-coded line number 1 and message
"Unterminated string.", otherwise a `String` token with the enclosed text. -/
def tokenize_string (chars : List Char) : Token × List Char :=
  let p := string_loop [] '"' chars
  if p.2.1 ≠ '"' then
    (Token.Invalid ⟨1, "Unterminated string."⟩, p.2.2)
  else
    (Token.String ⟨p.1⟩, p.2.2)

/-- The comment-skipping loop in the `'/'` arm of `tokenize`:
`while let Some(c) = chars.next() { if c == '\n' { line += 1; break; } }`.
Returns the remaining input and the updated line counter. -/
def comment_loop (line : Nat) : List Char → List Char × Nat
  | [] => ([], line)
  | c :: rest =>
    if c = '\n' then (rest, line + 1)
    else comment_loop line rest

theorem identifier_loop_rest_length (acc : List Char) :
    ∀ cs : List Char, (identifier_loop acc cs).2.length ≤ cs.length := by
  intro cs
  induction cs generalizing acc with
  | nil => simp [identifier_loop]
  | cons c rest ih =>
    simp only [identifier_loop]
    split
    · exact Nat.le_succ_of_le (ih _)
    · simp

theorem number_loop_rest_length (acc : List Char) (decimal : Bool) :
    ∀ cs : List Char, (number_loop acc decimal cs).2.length ≤ cs.length := by
  intro cs
  induction cs generalizing acc decimal with
  | nil => simp [number_loop]
  | cons c rest ih =>
    simp only [number_loop]
    split
    · exact Nat.le_succ_of_le (ih _ _)
    · split
      · split
        · simp
        · split
          · simp
          · split
            · exact Nat.le_succ_of_le (ih _ _)
            · simp
      · simp

theorem string_loop_rest_length (acc : List Char) (last_char : Char) :
    ∀ cs : List Char, (string_loop acc last_char cs).2.2.length ≤ cs.length := by
  intro cs
  induction cs generalizing acc last_char with
  | nil => simp [string_loop]
  | cons c rest ih =>
    simp only [string_loop]
    split
    · simp
    · exact Nat.le_succ_of_le (ih _ _)

theorem comment_loop_rest_length (line : Nat) :
    ∀ cs : List Char, (comment_loop line cs).1.length ≤ cs.length := by
  intro cs
  induction cs generalizing line with
  | nil => simp [comment_loop]
  | cons c rest ih =>
    simp only [comment_loop]
    split
    · simp
    · exact Nat.le_succ_of_le (ih _)

theorem tokenize_number_rest_length (c : Char) (cs : List Char) :
    (tokenize_number c cs).2.length ≤ cs.length := by
  simpa [tokenize_number] using number_loop_rest_length [c] false cs

theorem tokenize_string_rest_length (cs : List Char) :
    (tokenize_string cs).2.length ≤ cs.length := by
  simp only [tokenize_string]
  split <;> simpa using string_loop_rest_length [] '"' cs

theorem tokenize_identifier_rest_length (c : Char) (cs : List Char) :
    (tokenize_identifier c cs).2.length ≤ cs.length := by
  simp only [tokenize_identifier]
  split <;> simpa using identifier_loop_rest_length [c] cs

theorem tail_length_le (l : List Char) : l.tail.length ≤ l.length := by
  cases l <;> simp

/-- The body of the `while let Some(c) = chars.next()` loop of `tokenize`:
each iteration consumes one character (plus whatever the arm's helper
consumes), pushes exactly one token, and possibly updates the line counter.
The branch order mirrors the source's `match` arm order. -/
def scan (cs : List Char) (line : Nat) : List Token :=
  match cs with
  | [] => []
  | c :: rest =>
    if c = ' ' ∨ c = '\t' then
      Token.WhiteSpace :: scan rest line
    else if c = '=' then
      if rest.head? = some '=' then Token.EqualEqual :: scan rest.tail line
      else Token.Equal :: scan rest line
    else if c = ';' then Token.Semicolon :: scan rest line
    else if c = '(' then Token.LeftParen :: scan rest line
    else if c = ')' then Token.RightParen :: scan rest line
    else if c = '{' then Token.LeftBrace :: scan rest line
    else if c = '}' then Token.RightBrace :: scan rest line
    else if c = '*' then Token.Star :: scan rest line
    else if c = '.' then Token.Dot :: scan rest line
    else if c = ',' then Token.Comma :: scan rest line
    else if c = '+' then Token.Plus :: scan rest line
    else if c = '-' then Token.Minus :: scan rest line
    else if c = '/' then
      if rest.head? = some '/' then
        Token.WhiteSpace ::
          scan (comment_loop line rest.tail).1 (comment_loop line rest.tail).2
      else Token.Slash :: scan rest line
    else if c = '!' then
      if rest.head? = some '=' then Token.BangEqual :: scan rest.tail line
      else Token.Bang :: scan rest line
    else if c = '<' then
      if rest.head? = some '=' then Token.LessEqual :: scan rest.tail line
      else Token.Less :: scan rest line
    else if c = '>' then
      if rest.head? = some '=' then Token.GreaterEqual :: scan rest.tail line
      else Token.Greater :: scan rest line
    else if isDigit10 c then
      (tokenize_number c rest).1 :: scan (tokenize_number c rest).2 line
    else if c = '"' then
      (tokenize_string rest).1 :: scan (tokenize_string rest).2 line
    else if isIdentStart c then
      (tokenize_identifier c rest).1 :: scan (tokenize_identifier c rest).2 line
    else if c = '\n' then
      Token.WhiteSpace :: scan rest (line + 1)
    else
      Token.Invalid ⟨line, "Unexpected character: ".push c⟩ :: scan rest line
termination_by cs.length
decreasing_by
  all_goals simp_wf
  all_goals first
    | omega
    | exact Nat.lt_succ_of_le (tail_length_le _)
    | exact Nat.lt_succ_of_le
        ((comment_loop_rest_length _ _).trans (tail_length_le _))
    | exact Nat.lt_succ_of_le (tokenize_number_rest_length _ _)
    | exact Nat.lt_succ_of_le (tokenize_string_rest_length _)
    | exact Nat.lt_succ_of_le (tokenize_identifier_rest_length _ _)

/-- `tokenize` of the source: run the scanning loop over the whole input
starting at line 1, then push the final `EOF` token. -/
def tokenize (input : String) : List Token :=
  scan input.data 1 ++ [Token.EOF]

/-- The characters matched by no arm of the scanner's `match` other than the
final catch-all: not whitespace, not one of the punctuation and operator
starters, not an ASCII digit, not `'"'`, not an identifier starter, and not a
newline. -/
def unmatched (c : Char) : Prop :=
  c ≠ ' ' ∧ c ≠ '\t' ∧ c ≠ '=' ∧ c ≠ ';' ∧ c ≠ '(' ∧ c ≠ ')' ∧ c ≠ '{' ∧
  c ≠ '}' ∧ c ≠ '*' ∧ c ≠ '.' ∧ c ≠ ',' ∧ c ≠ '+' ∧ c ≠ '-' ∧ c ≠ '/' ∧
  c ≠ '!' ∧ c ≠ '<' ∧ c ≠ '>' ∧ isDigit10 c = false ∧ c ≠ '"' ∧
  isIdentStart c = false ∧ c ≠ '\n'

instance : DecidablePred unmatched := fun c => by
  unfold unmatched
  infer_instance

/-- The textual rendering of tokens, from `impl Display for Token` in the
source.  The `Number` arm of the source parses the scanned text as an `f64`
and re-renders it with Rust's debug format; that floating-point rendering is
abstracted here as the parameter `number_display`, which no claim about the
other arms depends on. -/
def token_display (number_display : String → String) : Token → String
  | Token.WhiteSpace => ""
  | Token.And => "AND and null"
  | Token.Class => "CLASS class null"
  | Token.Else => "ELSE else null"
  | Token.False => "FALSE false null"
  | Token.For => "FOR for null"
  | Token.Fun => "FUN fun null"
  | Token.If => "IF if null"
  | Token.Nil => "NIL nil null"
  | Token.Or => "OR or null"
  | Token.Print => "PRINT print null"
  | Token.Return => "RETURN return null"
  | Token.Super => "SUPER super null"
  | Token.This => "THIS this null"
  | Token.True => "TRUE true null"
  | Token.While => "WHILE while null"
  | Token.Var => "VAR var null"
  | Token.Equal => "EQUAL = null"
  | Token.EqualEqual => "EQUAL_EQUAL == null"
  | Token.Semicolon => "SEMICOLON ; null"
  | Token.LeftParen => "LEFT_PAREN ( null"
  | Token.RightParen => "RIGHT_PAREN ) null"
  | Token.LeftBrace => "LEFT_BRACE \x7b null"
  | Token.RightBrace => "RIGHT_BRACE \x7d null"
  | Token.Star => "STAR * null"
  | Token.Dot => "DOT . null"
  | Token.Comma => "COMMA , null"
  | Token.Plus => "PLUS + null"
  | Token.Minus => "MINUS - null"
  | Token.Slash => "SLASH / null"
  | Token.EOF => "EOF  null"
  | Token.Bang => "BANG ! null"
  | Token.BangEqual => "BANG_EQUAL != null"
  | Token.Less => "LESS < null"
  | Token.LessEqual => "LESS_EQUAL <= null"
  | Token.Greater => "GREATER > null"
  | Token.GreaterEqual => "GREATER_EQUAL >= null"
  | Token.Identifier s => "IDENTIFIER " ++ s ++ " null"
  | Token.String s => "STRING \"" ++ s ++ "\" " ++ s
  | Token.Number s => "NUMBER " ++ s ++ " " ++ number_display s
  | Token.Invalid e => "[line " ++ toString e.line ++ "] Error: " ++ e.message

/-- Every token the scanning loop may push: never `EOF`, and a `Number`
token's text is non-empty and does not end in `'.'`. -/
def emittable : Token → Prop
  | Token.EOF => False
  | Token.Number s => s.data ≠ [] ∧ s.data.getLast? ≠ some '.'
  | _ => True

theorem identifier_loop_eq (cs : List Char) :
    ∀ acc, identifier_loop acc cs =
      (acc ++ cs.takeWhile isIdentCont, cs.dropWhile isIdentCont) := by
  induction cs with
  | nil => intro acc; simp [identifier_loop]
  | cons c rest ih =>
    intro acc
    by_cases h : isIdentCont c
    · simp [identifier_loop, h, ih, List.takeWhile_cons, List.dropWhile_cons]
    · simp [identifier_loop, h, List.takeWhile_cons, List.dropWhile_cons]

theorem tokenize_identifier_eq (c : Char) (cs : List Char) :
    tokenize_identifier c cs =
      (match RESERVED_KEYWORDS.find?
          (fun kw => kw.1 == (⟨c :: cs.takeWhile isIdentCont⟩ : String)) with
        | some kw => kw.2
        | none => Token.Identifier ⟨c :: cs.takeWhile isIdentCont⟩,
       cs.dropWhile isIdentCont) := by
  simp only [tokenize_identifier, identifier_loop_eq, List.singleton_append]
  cases RESERVED_KEYWORDS.find?
      (fun kw => kw.1 == (⟨c :: cs.takeWhile isIdentCont⟩ : String)) <;> rfl

theorem identifier_loopP_eq (isalnum : Char → Bool) (cs : List Char) :
    ∀ acc, identifier_loopP isalnum acc cs =
      (acc ++ cs.takeWhile (fun x => isalnum x || x = '_'),
       cs.dropWhile (fun x => isalnum x || x = '_')) := by
  induction cs with
  | nil => intro acc; simp [identifier_loopP]
  | cons c rest ih =>
    intro acc
    by_cases h : (isalnum c || c = '_') = true
    · simp [identifier_loopP, h, ih, List.takeWhile_cons, List.dropWhile_cons]
    · simp [identifier_loopP, h, List.takeWhile_cons, List.dropWhile_cons]

theorem tokenize_identifierP_eq (isalnum : Char → Bool) (c : Char)
    (cs : List Char) :
    tokenize_identifierP isalnum c cs =
      (match RESERVED_KEYWORDS.find? (fun kw => kw.1 ==
          (⟨c :: cs.takeWhile (fun x => isalnum x || x = '_')⟩ : String)) with
        | some kw => kw.2
        | none =>
          Token.Identifier
            ⟨c :: cs.takeWhile (fun x => isalnum x || x = '_')⟩,
       cs.dropWhile (fun x => isalnum x || x = '_')) := by
  simp only [tokenize_identifierP, identifier_loopP_eq,
    List.singleton_append]
  cases RESERVED_KEYWORDS.find? (fun kw => kw.1 ==
      (⟨c :: cs.takeWhile (fun x => isalnum x || x = '_')⟩ : String)) <;> rfl

theorem tokenize_identifierP_fst_eq (isalnum : Char → Bool) (c : Char)
    (cs : List Char) :
    (tokenize_identifierP isalnum c cs).1 =
      (match RESERVED_KEYWORDS.find? (fun kw => kw.1 ==
          (⟨c :: cs.takeWhile (fun x => isalnum x || x = '_')⟩ : String)) with
        | some kw => kw.2
        | none =>
          Token.Identifier
            ⟨c :: cs.takeWhile (fun x => isalnum x || x = '_')⟩) := by
  rw [tokenize_identifierP_eq]

theorem identifier_loopP_ascii (cs : List Char) :
    ∀ acc, identifier_loopP is_alphanumeric acc cs = identifier_loop acc cs := by
  induction cs with
  | nil => intro acc; rfl
  | cons c rest ih =>
    intro acc
    simp only [identifier_loopP, identifier_loop]
    have hcond : (is_alphanumeric c || c = '_') = isIdentCont c := rfl
    rw [hcond]
    by_cases h : isIdentCont c = true <;> simp [h, ih]

theorem tokenize_identifierP_ascii :
    tokenize_identifier = tokenize_identifierP is_alphanumeric := by
  funext c cs
  simp only [tokenize_identifier, tokenize_identifierP,
    identifier_loopP_ascii]

theorem string_loop_mem (cs : List Char) (hmem : '"' ∈ cs) :
    ∀ acc last_char, string_loop acc last_char cs =
      (acc ++ cs.takeWhile (· ≠ '"'), '"',
        (cs.dropWhile (· ≠ '"')).drop 1) := by
  induction cs with
  | nil => cases hmem
  | cons c rest ih =>
    intro acc last_char
    by_cases h : c = '"'
    · subst h
      simp [string_loop, List.takeWhile_cons, List.dropWhile_cons]
    · have hr : '"' ∈ rest := by
        cases List.mem_cons.1 hmem with
        | inl he => exact absurd he.symm h
        | inr hr => exact hr
      simp [string_loop, h, ih hr, List.takeWhile_cons, List.dropWhile_cons]

theorem tokenize_string_mem (cs : List Char) (hmem : '"' ∈ cs) :
    tokenize_string cs =
      (Token.String ⟨cs.takeWhile (· ≠ '"')⟩,
        (cs.dropWhile (· ≠ '"')).drop 1) := by
  simp [tokenize_string, string_loop_mem cs hmem]

theorem comment_loop_mem (cs : List Char) (hmem : '\n' ∈ cs) :
    ∀ line, comment_loop line cs =
      ((cs.dropWhile (· ≠ '\n')).drop 1, line + 1) := by
  induction cs with
  | nil => cases hmem
  | cons c rest ih =>
    intro line
    by_cases h : c = '\n'
    · subst h
      simp [comment_loop, List.dropWhile_cons]
    · have hr : '\n' ∈ rest := by
        cases List.mem_cons.1 hmem with
        | inl he => exact absurd he.symm h
        | inr hr => exact hr
      simp [comment_loop, h, ih hr, List.dropWhile_cons]

theorem comment_loop_not_mem (cs : List Char) (hmem : '\n' ∉ cs) :
    ∀ line, comment_loop line cs = ([], line) := by
  induction cs with
  | nil => intro line; simp [comment_loop]
  | cons c rest ih =>
    intro line
    have h : c ≠ '\n' := fun he => hmem (he ▸ List.mem_cons_self c rest)
    have hr : '\n' ∉ rest := fun hx => hmem (List.mem_cons_of_mem c hx)
    simp [comment_loop, h, Ne.symm h, ih hr]

theorem number_loop_fst_ne_nil (cs : List Char) :
    ∀ acc decimal, acc ≠ [] → (number_loop acc decimal cs).1 ≠ [] := by
  induction cs with
  | nil => intro acc decimal h; simpa [number_loop] using h
  | cons c rest ih =>
    intro acc decimal h
    have hgrow : acc ++ [c] ≠ [] := by simp
    simp only [number_loop]
    split
    · exact ih _ _ hgrow
    · split
      · split
        · simpa using h
        · split
          · simpa using h
          · split
            · exact ih _ _ hgrow
            · simpa using h
      · simpa using h

theorem emittable_tokenize_number (c : Char) (cs : List Char) :
    emittable (tokenize_number c cs).1 := by
  have hne : (number_loop [c] false cs).1 ≠ [] :=
    number_loop_fst_ne_nil cs [c] false (by simp)
  simp only [tokenize_number]
  by_cases h : (number_loop [c] false cs).1.getLast? = some '.'
  · simp only [h, if_pos]
    refine ⟨by simp, ?_⟩
    rw [List.getLast?_concat]
    simp
  · simp only [h, if_neg, if_false]
    exact ⟨by simpa using hne, by simpa using h⟩

theorem emittable_tokenize_string (cs : List Char) :
    emittable (tokenize_string cs).1 := by
  simp only [tokenize_string]
  split <;> simp [emittable]

theorem emittable_keyword :
    ∀ kw ∈ RESERVED_KEYWORDS, emittable kw.2 := by
  intro kw h
  fin_cases h <;> trivial

theorem emittable_tokenize_identifier (c : Char) (cs : List Char) :
    emittable (tokenize_identifier c cs).1 := by
  rw [tokenize_identifier_eq]
  cases hfind : RESERVED_KEYWORDS.find?
      (fun kw => kw.1 == (⟨c :: cs.takeWhile isIdentCont⟩ : String)) with
  | none => simp [hfind, emittable]
  | some kw =>
    simp only [hfind]
    exact emittable_keyword kw (List.mem_of_find?_eq_some hfind)

set_option maxHeartbeats 1000000 in
theorem scan_emittable (cs : List Char) (line : Nat) :
    ∀ t ∈ scan cs line, emittable t := by
  induction cs, line using scan.induct
  all_goals intro t ht
  all_goals rw [scan] at ht
  all_goals try simp only [*, List.head?_cons, List.tail_cons, reduceIte,
    Bool.false_eq_true, if_false, ite_false,
    Option.some.injEq, List.mem_cons] at ht
  all_goals
    first
      | exact absurd ht (List.not_mem_nil _)
      | (rcases ht with rfl | ht <;>
          first
            | trivial
            | exact emittable_tokenize_number _ _
            | exact emittable_tokenize_string _
            | exact emittable_tokenize_identifier _ _
            | solve_by_elim)

/-- C1: for every input text, `tokenize` returns (it is a total function) and
the returned sequence is non-empty, its last element is the end-of-input
marker `EOF`, and `EOF` occurs at no earlier position in the sequence. -/
theorem c1_eof_exactly_last (input : String) :
    ∃ ts, tokenize input = ts ++ [Token.EOF] ∧ Token.EOF ∉ ts :=
  ⟨scan input.data 1, rfl, fun h => scan_emittable input.data 1 Token.EOF h⟩

/-- C8: for every input, the text payload of every `Number` token produced by
`tokenize` is non-empty and never ends in a bare `'.'` (the scanner appends a
`'0'` digit whenever the accumulated literal would end with a trailing dot). -/
theorem c8_number_no_trailing_dot (input : String) (t : Token) (s : String)
    (hmem : t ∈ tokenize input) (ht : t = Token.Number s) :
    s.data ≠ [] ∧ s.data.getLast? ≠ some '.' := by
  subst ht
  rcases List.mem_append.1 hmem with h | h
  · exact scan_emittable input.data 1 _ h
  · simp at h

theorem tokenize_identifier_fst_eq (c : Char) (cs : List Char) :
    (tokenize_identifier c cs).1 =
      (match RESERVED_KEYWORDS.find?
          (fun kw => kw.1 == (⟨c :: cs.takeWhile isIdentCont⟩ : String)) with
        | some kw => kw.2
        | none => Token.Identifier ⟨c :: cs.takeWhile isIdentCont⟩) := by
  rw [tokenize_identifier_eq]

theorem tokenize_identifier_snd_eq (c : Char) (cs : List Char) :
    (tokenize_identifier c cs).2 = cs.dropWhile isIdentCont := by
  rw [tokenize_identifier_eq]

theorem identStart_ranges (c : Char) (h : isIdentStart c = true) :
    ('a' ≤ c ∧ c ≤ 'z') ∨ ('A' ≤ c ∧ c ≤ 'Z') ∨ c = '_' := by
  simpa [isIdentStart, Bool.or_eq_true, Bool.and_eq_true,
    decide_eq_true_eq, or_assoc] using h

theorem identStart_not_digit (c : Char) (h : isIdentStart c = true) :
    isDigit10 c = false := by
  by_contra hd
  rw [Bool.not_eq_false] at hd
  have hd' : '0' ≤ c ∧ c ≤ '9' := by
    simpa [isDigit10, Bool.and_eq_true, decide_eq_true_eq] using hd
  rcases identStart_ranges c h with ⟨h1, _⟩ | ⟨h1, _⟩ | rfl
  · exact absurd (le_trans h1 hd'.2) (by decide)
  · exact absurd (le_trans h1 hd'.2) (by decide)
  · exact absurd hd (by decide)

theorem identStart_ne (c : Char) (h : isIdentStart c = true) (d : Char)
    (hd : isIdentStart d = false) : c ≠ d := by
  intro e
  subst e
  simp [h] at hd

theorem scan_identifier (c : Char) (cs : List Char) (line : Nat)
    (h : isIdentStart c = true) :
    scan (c :: cs) line =
      (tokenize_identifier c cs).1 :: scan (cs.dropWhile isIdentCont) line := by
  have hor : ¬(c = ' ' ∨ c = '\t') := by
    rintro (rfl | rfl) <;> simp [isIdentStart] at h
  rw [scan]
  rw [if_neg hor,
      if_neg (identStart_ne c h '=' (by decide)),
      if_neg (identStart_ne c h ';' (by decide)),
      if_neg (identStart_ne c h '(' (by decide)),
      if_neg (identStart_ne c h ')' (by decide)),
      if_neg (identStart_ne c h '{' (by decide)),
      if_neg (identStart_ne c h '}' (by decide)),
      if_neg (identStart_ne c h '*' (by decide)),
      if_neg (identStart_ne c h '.' (by decide)),
      if_neg (identStart_ne c h ',' (by decide)),
      if_neg (identStart_ne c h '+' (by decide)),
      if_neg (identStart_ne c h '-' (by decide)),
      if_neg (identStart_ne c h '/' (by decide)),
      if_neg (identStart_ne c h '!' (by decide)),
      if_neg (identStart_ne c h '<' (by decide)),
      if_neg (identStart_ne c h '>' (by decide)),
      if_neg (by simp [identStart_not_digit c h]),
      if_neg (identStart_ne c h '"' (by decide)),
      if_pos h, tokenize_identifier_snd_eq]

theorem scan_string (rest : List Char) (line : Nat) :
    scan ('"' :: rest) line =
      (tokenize_string rest).1 :: scan (tokenize_string rest).2 line := by
  rw [scan]
  simp [isDigit10]

theorem scan_comment (rest : List Char) (line : Nat) :
    scan ('/' :: '/' :: rest) line =
      Token.WhiteSpace ::
        scan (comment_loop line rest).1 (comment_loop line rest).2 := by
  rw [scan]
  simp

theorem scan_nil (line : Nat) : scan [] line = [] := by
  rw [scan]

theorem scan_whitespace_only (cs : List Char) :
    ∀ line, (∀ c ∈ cs, c = ' ' ∨ c = '\t' ∨ c = '\n') →
      scan cs line = List.replicate cs.length Token.WhiteSpace := by
  induction cs with
  | nil => intro line _; simp [scan_nil]
  | cons c rest ih =>
    intro line h
    have hc := h c (List.mem_cons_self c rest)
    have ht : ∀ x ∈ rest, x = ' ' ∨ x = '\t' ∨ x = '\n' :=
      fun x hx => h x (List.mem_cons_of_mem c hx)
    rcases hc with rfl | rfl | rfl <;>
      (rw [scan]; simp [List.replicate_succ, ih _ ht, isDigit10, isIdentStart])

/-- C2 counterexample: on the one-space input, `tokenize` does not return the
sequence containing only the end-of-input marker; the space contributes a
`WhiteSpace` token. -/
theorem c2_whitespace_counterexample :
    tokenize " " = [Token.WhiteSpace, Token.EOF] ∧
    tokenize " " ≠ [Token.EOF] := by
  have h : tokenize " " = [Token.WhiteSpace, Token.EOF] := by
    simp [tokenize, scan, tokenize_number, tokenize_string, tokenize_identifier,
      number_loop, string_loop, identifier_loop, comment_loop, isDigit10,
      isIdentStart, isIdentCont, is_alphanumeric, RESERVED_KEYWORDS]
  exact ⟨h, by simp [h]⟩

/-- C2 amended: every space, tab or newline character contributes one
`WhiteSpace` marker token (not nothing) to the returned sequence, so an input
consisting only of such characters yields one `WhiteSpace` token per input
character followed by the end-of-input marker. -/
theorem c2_whitespace_markers (input : String)
    (h : ∀ c ∈ input.data, c = ' ' ∨ c = '\t' ∨ c = '\n') :
    tokenize input =
      List.replicate input.data.length Token.WhiteSpace ++ [Token.EOF] := by
  rw [tokenize, scan_whitespace_only input.data 1 h]

theorem c2_whitespace_witness :
    (∀ c ∈ (" \t\n" : String).data, c = ' ' ∨ c = '\t' ∨ c = '\n') ∧
    tokenize " \t\n" =
      List.replicate (" \t\n" : String).data.length Token.WhiteSpace ++
        [Token.EOF] :=
  ⟨by decide, c2_whitespace_markers " \t\n" (by decide)⟩

/-- C3: behavior of the code at the inputs deciding the claim.  A string
opened on line 2 that reaches end of input unterminated produces the
`Invalid` token with the hard-coded line number 1, not the opening line 2;
and an opening quote as the very last character produces a `String ""` token
and no error at all. -/
theorem c3_unterminated_string_line :
    tokenize "\n\"abc" =
      [Token.WhiteSpace, Token.Invalid ⟨1, "Unterminated string."⟩,
        Token.EOF] ∧
    tokenize "\"" = [Token.String "", Token.EOF] := by
  constructor <;>
    simp [tokenize, scan, tokenize_number, tokenize_string, tokenize_identifier,
      number_loop, string_loop, identifier_loop, comment_loop, isDigit10,
      isIdentStart, isIdentCont, is_alphanumeric, RESERVED_KEYWORDS]

/-- C4: behavior of the code at the inputs deciding the claim.  The number
scanner consumes a dot only when the second character after the dot exists
and is a digit (`peek_nth(2)`), so `"1.5"` scans as three tokens
`1`, `.`, `5` instead of the single number `1.5`, while `"123."` and
`"123.45"` behave as the claim describes. -/
theorem c4_number_dot_lookahead :
    tokenize "1.5" =
      [Token.Number "1", Token.Dot, Token.Number "5", Token.EOF] ∧
    tokenize "123." = [Token.Number "123", Token.Dot, Token.EOF] ∧
    tokenize "123.45" = [Token.Number "123.45", Token.EOF] := by
  refine ⟨?_, ?_, ?_⟩ <;>
    simp [tokenize, scan, tokenize_number, tokenize_string, tokenize_identifier,
      number_loop, string_loop, identifier_loop, comment_loop, isDigit10,
      isIdentStart, isIdentCont, is_alphanumeric, RESERVED_KEYWORDS]

/-- C5: starting at a letter or underscore, the scanner accumulates the
maximal run of alphanumeric/underscore characters; when the accumulated text
equals the spelling of an entry of the 16-entry reserved-word table
(case-sensitive, exact) the entry's token is emitted, otherwise an
`Identifier` with the accumulated text; scanning resumes right after the run.
Rust's Unicode `char::is_alphanumeric` is abstracted as the parameter
`isalnum`: the accumulation, resumption and lookup statements hold for every
`isalnum`, in particular for the source's true predicate.  The scanner model
instantiates the sub-scanner at the ASCII fragment
(`tokenize_identifier = tokenize_identifierP is_alphanumeric`), dispatches to
it from a letter or underscore, and on the concrete all-ASCII inputs — where
the instance agrees with the source exactly — every reserved word alone
tokenizes to its keyword token while `"variable"` is a single `Identifier`,
never `Var` plus trailing characters. -/
theorem c5_identifier_keywords :
    (∀ (isalnum : Char → Bool) (acc cs : List Char),
        identifier_loopP isalnum acc cs =
          (acc ++ cs.takeWhile (fun x => isalnum x || x = '_'),
           cs.dropWhile (fun x => isalnum x || x = '_'))) ∧
    (∀ (isalnum : Char → Bool) (c : Char) (cs : List Char)
        (kw : String × Token), kw ∈ RESERVED_KEYWORDS →
        (⟨c :: cs.takeWhile (fun x => isalnum x || x = '_')⟩ : String) =
          kw.1 →
        (tokenize_identifierP isalnum c cs).1 = kw.2) ∧
    (∀ (isalnum : Char → Bool) (c : Char) (cs : List Char),
        (∀ kw ∈ RESERVED_KEYWORDS,
          (⟨c :: cs.takeWhile (fun x => isalnum x || x = '_')⟩ : String) ≠
            kw.1) →
        (tokenize_identifierP isalnum c cs).1 =
          Token.Identifier
            ⟨c :: cs.takeWhile (fun x => isalnum x || x = '_')⟩) ∧
    (∀ (isalnum : Char → Bool) (c : Char) (cs : List Char),
        (tokenize_identifierP isalnum c cs).2 =
          cs.dropWhile (fun x => isalnum x || x = '_')) ∧
    tokenize_identifier = tokenize_identifierP is_alphanumeric ∧
    (∀ (c : Char) (cs : List Char) (line : Nat), isIdentStart c = true →
        scan (c :: cs) line =
          (tokenize_identifier c cs).1 ::
            scan (tokenize_identifier c cs).2 line) ∧
    (∀ kw ∈ RESERVED_KEYWORDS, tokenize kw.1 = [kw.2, Token.EOF]) ∧
    tokenize "variable" = [Token.Identifier "variable", Token.EOF] := by
  refine ⟨?_, ?_, ?_, ?_, tokenize_identifierP_ascii, ?_, ?_, ?_⟩
  · intro isalnum acc cs
    exact identifier_loopP_eq isalnum cs acc
  · intro isalnum c cs kw hkw htext
    rw [tokenize_identifierP_fst_eq, htext]
    fin_cases hkw <;> decide
  · intro isalnum c cs hne
    rw [tokenize_identifierP_fst_eq]
    have hfind : RESERVED_KEYWORDS.find? (fun kw => kw.1 ==
        (⟨c :: cs.takeWhile (fun x => isalnum x || x = '_')⟩ : String)) =
          none := by
      rw [List.find?_eq_none]
      intro kw hkw
      simp only [beq_iff_eq]
      exact fun e => hne kw hkw e.symm
    rw [hfind]
  · intro isalnum c cs
    rw [tokenize_identifierP_eq]
  · intro c cs line h
    rw [tokenize_identifier_snd_eq]
    exact scan_identifier c cs line h
  · intro kw hkw
    fin_cases hkw <;>
      simp [tokenize, scan, tokenize_number, tokenize_string,
        tokenize_identifier, number_loop, string_loop, identifier_loop,
        comment_loop, isDigit10, isIdentStart, isIdentCont, is_alphanumeric,
        RESERVED_KEYWORDS]
  · simp [tokenize, scan, tokenize_number, tokenize_string, tokenize_identifier,
      number_loop, string_loop, identifier_loop, comment_loop, isDigit10,
      isIdentStart, isIdentCont, is_alphanumeric, RESERVED_KEYWORDS]

theorem c5_identifier_witness :
    ("var", Token.Var) ∈ RESERVED_KEYWORDS ∧
    (⟨'v' :: ['a', 'r'].takeWhile
        (fun x => is_alphanumeric x || x = '_')⟩ : String) = "var" ∧
    (tokenize_identifierP is_alphanumeric 'v' ['a', 'r']).1 = Token.Var ∧
    isIdentStart 'v' = true ∧
    scan ['v', 'a', 'r'] 1 =
      (tokenize_identifier 'v' ['a', 'r']).1 ::
        scan (tokenize_identifier 'v' ['a', 'r']).2 1 :=
  ⟨by decide, by decide,
    c5_identifier_keywords.2.1 is_alphanumeric 'v' ['a', 'r']
      ("var", Token.Var) (by decide) (by decide),
    by decide,
    c5_identifier_keywords.2.2.2.2.2.1 'v' ['a', 'r'] 1 (by decide)⟩

/-- C6: on `'/'` followed by a second `'/'`, the scanner discards all
characters up to and including the next newline — incrementing the line
counter exactly once when that newline is consumed — or up to end of input if
no newline follows (line counter unchanged); a `'/'` not followed by `'/'`
yields a `Slash` token.  The concrete case shows an error after a comment
reported on the correctly incremented line. -/
theorem c6_comment_handling :
    (∀ rest line, '\n' ∈ rest →
        scan ('/' :: '/' :: rest) line =
          Token.WhiteSpace ::
            scan ((rest.dropWhile (· ≠ '\n')).drop 1) (line + 1)) ∧
    (∀ (rest : List Char) (line : Nat), '\n' ∉ rest →
        scan ('/' :: '/' :: rest) line = [Token.WhiteSpace]) ∧
    (∀ (rest : List Char) (line : Nat), rest.head? ≠ some '/' →
        scan ('/' :: rest) line = Token.Slash :: scan rest line) ∧
    tokenize "//x\n$" =
      [Token.WhiteSpace, Token.Invalid ⟨2, "Unexpected character: $"⟩,
        Token.EOF] := by
  refine ⟨?_, ?_, ?_, ?_⟩
  · intro rest line hmem
    rw [scan_comment, comment_loop_mem rest hmem line]
  · intro rest line hmem
    rw [scan_comment, comment_loop_not_mem rest hmem line, scan_nil]
  · intro rest line h
    rw [scan]
    simp [h]
  · simp [tokenize, scan, tokenize_number, tokenize_string, tokenize_identifier,
      number_loop, string_loop, identifier_loop, comment_loop, isDigit10,
      isIdentStart, isIdentCont, is_alphanumeric, RESERVED_KEYWORDS]
    decide

theorem c6_comment_witness :
    ('\n' ∈ ['\n']) ∧
    scan ['/', '/', '\n'] 1 =
      Token.WhiteSpace ::
        scan (((['\n'] : List Char).dropWhile (· ≠ '\n')).drop 1) (1 + 1) :=
  ⟨by decide, c6_comment_handling.1 ['\n'] 1 (by decide)⟩

/-- C7: for every character matched by no production rule, the scanner emits
an `Invalid` token with message exactly "Unexpected character: c" carrying
the current line number, then resumes scanning at the very next character;
concretely `"$+"` yields the error followed by a `Plus` token. -/
theorem c7_unexpected_character :
    (∀ (c : Char) (rest : List Char) (line : Nat), unmatched c →
        scan (c :: rest) line =
          Token.Invalid ⟨line, "Unexpected character: ".push c⟩ ::
            scan rest line) ∧
    tokenize "$+" =
      [Token.Invalid ⟨1, "Unexpected character: $"⟩, Token.Plus,
        Token.EOF] := by
  constructor
  · intro c rest line hc
    obtain ⟨h1, h2, h3, h4, h5, h6, h7, h8, h9, h10, h11, h12, h13, h14, h15,
      h16, h17, h18, h19, h20, h21⟩ := hc
    rw [scan]
    rw [if_neg (by rintro (rfl | rfl) <;> simp_all),
        if_neg h3, if_neg h4, if_neg h5, if_neg h6, if_neg h7, if_neg h8,
        if_neg h9, if_neg h10, if_neg h11, if_neg h12, if_neg h13, if_neg h14,
        if_neg h15, if_neg h16, if_neg h17,
        if_neg (by simp [h18]), if_neg h19,
        if_neg (by simp [h20]), if_neg h21]
  · simp [tokenize, scan, tokenize_number, tokenize_string, tokenize_identifier,
      number_loop, string_loop, identifier_loop, comment_loop, isDigit10,
      isIdentStart, isIdentCont, is_alphanumeric, RESERVED_KEYWORDS]
    decide

theorem c7_unexpected_witness :
    unmatched '$' ∧
    scan ['$'] 1 =
      Token.Invalid ⟨1, "Unexpected character: ".push '$'⟩ :: scan [] 1 :=
  ⟨by decide, c7_unexpected_character.1 '$' [] 1 (by decide)⟩

theorem c8_number_witness :
    (Token.Number "1.0") ∈ tokenize "1.x5" ∧
    ("1.0" : String).data ≠ [] ∧
    ("1.0" : String).data.getLast? ≠ some '.' := by
  have hmem : (Token.Number "1.0") ∈ tokenize "1.x5" := by
    simp [tokenize, scan, tokenize_number, tokenize_string, tokenize_identifier,
      number_loop, string_loop, identifier_loop, comment_loop, isDigit10,
      isIdentStart, isIdentCont, is_alphanumeric, RESERVED_KEYWORDS]
  exact ⟨hmem, c8_number_no_trailing_dot "1.x5" _ "1.0" hmem rfl⟩

/-- C9: the textual rendering of each token kind equals the kind-specific
reference format: reserved words as "UPPERCASE lexeme null", punctuation and
operators as "NAME lexeme null", `Identifier t` as "IDENTIFIER t null",
`String t` as quoted lexeme then unquoted value, and the end-of-input marker
as "EOF  null" with two spaces; these hold for every rendering of the
floating-point `Number` field. -/
theorem c9_token_rendering (number_display : String → String) :
    token_display number_display Token.And = "AND and null" ∧
    token_display number_display Token.Class = "CLASS class null" ∧
    token_display number_display Token.Else = "ELSE else null" ∧
    token_display number_display Token.False = "FALSE false null" ∧
    token_display number_display Token.For = "FOR for null" ∧
    token_display number_display Token.Fun = "FUN fun null" ∧
    token_display number_display Token.If = "IF if null" ∧
    token_display number_display Token.Nil = "NIL nil null" ∧
    token_display number_display Token.Or = "OR or null" ∧
    token_display number_display Token.Print = "PRINT print null" ∧
    token_display number_display Token.Return = "RETURN return null" ∧
    token_display number_display Token.Super = "SUPER super null" ∧
    token_display number_display Token.This = "THIS this null" ∧
    token_display number_display Token.True = "TRUE true null" ∧
    token_display number_display Token.Var = "VAR var null" ∧
    token_display number_display Token.While = "WHILE while null" ∧
    token_display number_display Token.Equal = "EQUAL = null" ∧
    token_display number_display Token.EqualEqual = "EQUAL_EQUAL == null" ∧
    token_display number_display Token.Semicolon = "SEMICOLON ; null" ∧
    token_display number_display Token.LeftParen = "LEFT_PAREN ( null" ∧
    token_display number_display Token.RightParen = "RIGHT_PAREN ) null" ∧
    token_display number_display Token.LeftBrace = "LEFT_BRACE \x7b null" ∧
    token_display number_display Token.RightBrace = "RIGHT_BRACE \x7d null" ∧
    token_display number_display Token.Star = "STAR * null" ∧
    token_display number_display Token.Dot = "DOT . null" ∧
    token_display number_display Token.Comma = "COMMA , null" ∧
    token_display number_display Token.Plus = "PLUS + null" ∧
    token_display number_display Token.Minus = "MINUS - null" ∧
    token_display number_display Token.Slash = "SLASH / null" ∧
    token_display number_display Token.Bang = "BANG ! null" ∧
    token_display number_display Token.BangEqual = "BANG_EQUAL != null" ∧
    token_display number_display Token.Less = "LESS < null" ∧
    token_display number_display Token.LessEqual = "LESS_EQUAL <= null" ∧
    token_display number_display Token.Greater = "GREATER > null" ∧
    token_display number_display Token.GreaterEqual =
      "GREATER_EQUAL >= null" ∧
    token_display number_display Token.EOF = "EOF  null" ∧
    (∀ t : String, token_display number_display (Token.Identifier t) =
      "IDENTIFIER " ++ t ++ " null") ∧
    (∀ t : String, token_display number_display (Token.String t) =
      "STRING \"" ++ t ++ "\" " ++ t) :=
  ⟨rfl, rfl, rfl, rfl, rfl, rfl, rfl, rfl, rfl, rfl, rfl, rfl, rfl, rfl, rfl,
    rfl, rfl, rfl, rfl, rfl, rfl, rfl, rfl, rfl, rfl, rfl, rfl, rfl, rfl, rfl,
    rfl, rfl, rfl, rfl, rfl, rfl, fun _ => rfl, fun _ => rfl⟩

/-- C10: newline characters inside a terminated string literal are
accumulated verbatim into the `String` token's payload while the line
counter passes through unchanged; concretely, an unexpected character after
a two-line string is still reported at line 1. -/
theorem c10_string_newlines :
    (∀ rest line, '"' ∈ rest →
        scan ('"' :: rest) line =
          Token.String ⟨rest.takeWhile (· ≠ '"')⟩ ::
            scan ((rest.dropWhile (· ≠ '"')).drop 1) line) ∧
    tokenize "\"a\nb\"$" =
      [Token.String "a\nb", Token.Invalid ⟨1, "Unexpected character: $"⟩,
        Token.EOF] := by
  constructor
  · intro rest line hmem
    rw [scan_string, tokenize_string_mem rest hmem]
  · simp [tokenize, scan, tokenize_number, tokenize_string, tokenize_identifier,
      number_loop, string_loop, identifier_loop, comment_loop, isDigit10,
      isIdentStart, isIdentCont, is_alphanumeric, RESERVED_KEYWORDS]
    decide

theorem c10_string_witness :
    ('"' ∈ ['a', '"']) ∧
    scan ['"', 'a', '"'] 1 =
      Token.String ⟨['a', '"'].takeWhile (· ≠ '"')⟩ ::
        scan (((['a', '"'] : List Char).dropWhile (· ≠ '"')).drop 1) 1 :=
  ⟨by decide, c10_string_newlines.1 ['a', '"'] 1 (by decide)⟩

end Lox
